import Mathlib

/-!
Shallow embedding of the Parametric Lathe Mesh Engine (loft editor) and proofs
of the specification claims.  Every definition mirrors a function of the
TypeScript source; JavaScript numbers are modelled as real numbers, and the
few places where IEEE semantics matter (division by zero in the radial clamp)
are called out at the corresponding theorem.
-/

namespace VaseTexture

noncomputable section

open Real

/-- Vector in 3-space (x, y, z), modelling a THREE.Vector3 entry of a
position or normal buffer attribute. -/
abbrev V3 : Type := ℝ × ℝ × ℝ

/-- Profile anchor of the loft Bezier curve.  Mirrors the fields of the
LoftBezierAnchor interface that the radius evaluator reads: position
(x = radius, y = height) and the two tangent handles.  The optional
on-screen mesh fields play no role in the evaluator. -/
structure Anchor where
  posX : ℝ
  posY : ℝ
  handleInX : ℝ
  handleInY : ℝ
  handleOutX : ℝ
  handleOutY : ℝ

instance : Inhabited Anchor := ⟨⟨0, 0, 0, 0, 0, 0⟩⟩

/-- Point of the cubic Bezier curve with control points p0, p1, p2, p3 at
parameter t (THREE.CubicBezierCurve3.getPoint, restricted to the x and y
coordinates that getRadiusAtHeight uses; the z coordinate is unused). -/
def bezierPoint (p0 p1 p2 p3 : ℝ × ℝ) (t : ℝ) : ℝ × ℝ :=
  ((1 - t) ^ 3 * p0.1 + 3 * (1 - t) ^ 2 * t * p1.1 + 3 * (1 - t) * t ^ 2 * p2.1 + t ^ 3 * p3.1,
   (1 - t) ^ 3 * p0.2 + 3 * (1 - t) ^ 2 * t * p1.2 + 3 * (1 - t) * t ^ 2 * p2.2 + t ^ 3 * p3.2)

/-- Bisection loop of getRadiusAtHeight: fuel counts the remaining
iterations (the source runs maxIterations = 20); when an iterate has height
error below the tolerance 0.0001 the radius at that iterate is returned,
clamped to 0.1, and after the last iteration the radius at the final t is
returned, clamped to 0.1. -/
def bisectRadius (p0 p1 p2 p3 : ℝ × ℝ) (height : ℝ) : ℕ → ℝ → ℝ → ℝ → ℝ
  | 0, _, _, t => max 0.1 (bezierPoint p0 p1 p2 p3 t).1
  | fuel + 1, tMin, tMax, t =>
    let point := bezierPoint p0 p1 p2 p3 t
    let error := point.2 - height
    if |error| < 0.0001 then max 0.1 point.1
    else if error > 0 then
      bisectRadius p0 p1 p2 p3 height fuel tMin t ((tMin + t) / 2)
    else
      bisectRadius p0 p1 p2 p3 height fuel t tMax ((t + tMax) / 2)

/-- Segment-search loop of getRadiusAtHeight: walks consecutive anchor
pairs; on the first pair whose heights bracket h it runs the bisection with
the Bezier control points built from the pair's positions and handles, and
if no pair brackets h it returns the fallback (loftParams.radius). -/
def findSegmentRadius (h fallback : ℝ) : List Anchor → ℝ
  | a :: b :: rest =>
    if a.posY ≤ h ∧ h ≤ b.posY then
      bisectRadius (a.posX, a.posY) (a.posX + a.handleOutX, a.posY + a.handleOutY)
        (b.posX + b.handleInX, b.posY + b.handleInY) (b.posX, b.posY) h 20 0 1 0.5
    else findSegmentRadius h fallback (b :: rest)
  | _ => fallback

/-- Radius of the profile at a given height (getRadiusAtHeight).
totalHeight is loftParams.height and baseRadius is loftParams.radius; the
anchor list is loftBezierAnchors. -/
def getRadiusAtHeight (anchors : List Anchor) (totalHeight baseRadius h : ℝ) : ℝ :=
  if h ≤ 0 then max 0.1 anchors.headI.posX
  else if h ≥ totalHeight then max 0.1 (anchors.getLastD default).posX
  else findSegmentRadius h baseRadius anchors

/-- Normal selection mode of the displacement engine
(loftParams.normalType). -/
inductive NormalMode where
  | vertex
  | face
  | horizontal
deriving DecidableEq

/-- Parameter bundle mirroring the loftParams fields the engine reads. -/
structure LoftParams where
  rings : ℕ
  segments : ℕ
  radius : ℝ
  height : ℝ
  twist : ℝ
  taper : ℝ
  normalType : NormalMode
  textureRepeatU : ℝ
  textureRepeatV : ℝ
  textureRotation : ℝ
  displacementScale : ℝ
  displacementBias : ℝ
  smoothingIntensity : ℕ
  falloffEnabled : Bool
  falloffTop : ℝ
  falloffBottom : ℝ
  falloffPower : ℝ
  exportScale : ℝ

/-- Minimum radius enforced throughout createLoftGeometry and the
displacement clamp (the local constant minRadius = 0.1). -/
def minRadius : ℝ := 0.1

/-- Height step of the ring grid: height / (rings - 1). -/
def heightStep (p : LoftParams) : ℝ := p.height / ((p.rings : ℝ) - 1)

/-- Twist step per ring, in radians: (twist deg to rad) / (rings - 1). -/
def twistStep (p : LoftParams) : ℝ := (p.twist * π / 180) / ((p.rings : ℝ) - 1)

/-- Per-ring taper factor of createLoftGeometry:
1.0 - (1.0 - taper) * (ring / (rings - 1)). -/
def ringTaper (p : LoftParams) (ring : ℕ) : ℝ :=
  1 - (1 - p.taper) * ((ring : ℝ) / ((p.rings : ℝ) - 1))

/-- Ring radius of createLoftGeometry:
max(minRadius, getRadiusAtHeight(y) * ringTaper) at y = ring * heightStep. -/
def ringRadius (anchors : List Anchor) (p : LoftParams) (ring : ℕ) : ℝ :=
  max minRadius (getRadiusAtHeight anchors p.height p.radius ((ring : ℝ) * heightStep p)
    * ringTaper p ring)

/-- Angle of a grid vertex: (seg / segments) * 2 pi plus the accumulated
ring twist. -/
def vertexTheta (p : LoftParams) (ring seg : ℕ) : ℝ :=
  ((seg : ℝ) / (p.segments : ℝ)) * π * 2 + (ring : ℝ) * twistStep p

/-- Position of grid vertex (ring, seg) pushed by createLoftGeometry:
(radius * cos theta, y, radius * sin theta). -/
def loftPosition (anchors : List Anchor) (p : LoftParams) (ring seg : ℕ) : V3 :=
  (ringRadius anchors p ring * Real.cos (vertexTheta p ring seg),
   (ring : ℝ) * heightStep p,
   ringRadius anchors p ring * Real.sin (vertexTheta p ring seg))

/-- V texture coordinate of a ring: ring / (rings - 1). -/
def loftV (p : LoftParams) (ring : ℕ) : ℝ := (ring : ℝ) / ((p.rings : ℝ) - 1)

/-- Truncation toward zero, the rounding JavaScript's remainder operator
uses. -/
def jsTrunc (x : ℝ) : ℝ := if 0 ≤ x then (⌊x⌋ : ℝ) else (⌈x⌉ : ℝ)

/-- JavaScript remainder a % b (sign follows the dividend). -/
def jsMod (a b : ℝ) : ℝ := a - b * jsTrunc (a / b)

/-- U texture coordinate of a grid vertex as createLoftGeometry stores it:
seg / segments rotated progressively by the texture rotation as a function
of v, wrapped by the percent operator into [0, 1). -/
def loftU (p : LoftParams) (ring seg : ℕ) : ℝ :=
  let u0 := (seg : ℝ) / (p.segments : ℝ)
  let rotationRadians := (p.textureRotation * π / 180) * loftV p ring
  let u1 := jsMod (u0 + rotationRadians / (π * 2)) 1
  if u1 < 0 then u1 + 1 else u1

/-- Anchors of spec scenario A: two anchors at heights 0 and 5, both with
radius 2 and zero handles. -/
def scenarioAAnchors : List Anchor := [⟨2, 0, 0, 0, 0, 0⟩, ⟨2, 5, 0, 0, 0, 0⟩]

/-- Parameters of spec scenario A: 10 rings, 16 segments, height 5, no
twist, no taper, no displacement. -/
def scenarioAParams : LoftParams :=
  { rings := 10, segments := 16, radius := 2, height := 5, twist := 0, taper := 1,
    normalType := NormalMode.horizontal, textureRepeatU := 1, textureRepeatV := 1,
    textureRotation := 0, displacementScale := 0, displacementBias := 0,
    smoothingIntensity := 0, falloffEnabled := true, falloffTop := 0.2,
    falloffBottom := 0.2, falloffPower := 2, exportScale := 10 }

/-- Displacement falloff multiplier (calculateDisplacementFalloff): 1 when
falloff is disabled, (v / falloffBottom) ^ power below falloffBottom,
((1 - v) / falloffTop) ^ power above 1 - falloffTop, and 1 in the middle.
Math.pow with a real exponent is modelled by Real.rpow, which agrees with it
on the nonnegative bases and positive exponents the engine uses. -/
def calculateDisplacementFalloff (p : LoftParams) (v : ℝ) : ℝ :=
  if p.falloffEnabled = false then 1
  else if v < p.falloffBottom then (v / p.falloffBottom) ^ p.falloffPower
  else if v > 1 - p.falloffTop then ((1 - v) / p.falloffTop) ^ p.falloffPower
  else 1

/-- Reference falloff multiplier written directly from the specification
text, for the refinement comparison of claim C4: inside the bottom zone
[0, falloffBottom] the multiplier is (v / falloffBottom) ^ power, inside the
top zone [1 - falloffTop, 1] it is ((1 - v) / falloffTop) ^ power, elsewhere
it is 1, and it is always 1 when falloff is disabled. -/
def falloffSpec (enabled : Bool) (ft fb pw v : ℝ) : ℝ :=
  if enabled = false then 1
  else if v ≤ fb then (v / fb) ^ pw
  else if 1 - ft ≤ v then ((1 - v) / ft) ^ pw
  else 1

/-- Parameters of spec scenario B: falloffTop = falloffBottom = 0.2,
power = 2, displacement scale 1, bias 0. -/
def scenarioBParams : LoftParams :=
  { rings := 10, segments := 16, radius := 2, height := 5, twist := 0, taper := 1,
    normalType := NormalMode.horizontal, textureRepeatU := 1, textureRepeatV := 1,
    textureRotation := 0, displacementScale := 1, displacementBias := 0,
    smoothingIntensity := 0, falloffEnabled := true, falloffTop := 0.2,
    falloffBottom := 0.2, falloffPower := 2, exportScale := 10 }

/-- Decoded displacement image: canvas dimensions and the red channel of
the pixel data (a byte per pixel), indexed by column and row as
imageData.data[(y * width + x) * 4] is. -/
structure HeightImage where
  width : ℕ
  height : ℕ
  red : ℤ → ℤ → ℕ

/-- Red channel value sampled by applyDisplacementToGeometry at repeat
fractions uSample and vSample: pixel column floor(uSample * (width - 1)) and
row floor((1 - vSample) * (height - 1)) (the V coordinate flip). -/
def samplePixelRed (img : HeightImage) (uSample vSample : ℝ) : ℕ :=
  img.red ⌊uSample * ((img.width : ℝ) - 1)⌋ ⌊(1 - vSample) * ((img.height : ℝ) - 1)⌋

/-- Raw displacement of applyDisplacementToGeometry at texture coordinate
(u, v): sample the red channel at (u * repeatU % 1, v * repeatV % 1),
normalize to [0, 1], and scale and bias. -/
def rawSample (p : LoftParams) (img : HeightImage) (scale bias u v : ℝ) : ℝ :=
  (samplePixelRed img (jsMod (u * p.textureRepeatU) 1) (jsMod (v * p.textureRepeatV) 1) : ℝ)
    / 255 * scale + bias

/-- Seam displacement precomputed in the first pass of
applyDisplacementToGeometry for the first vertex of a ring: sampled at
u = 0 with the ring's v, and already multiplied by the falloff. -/
def seamDisplacement (p : LoftParams) (img : HeightImage) (scale bias v : ℝ) : ℝ :=
  rawSample p img scale bias 0 v * calculateDisplacementFalloff p v

/-- Displacement value selected for vertex (ring, seg) by the main loop of
applyDisplacementToGeometry, before the per-vertex falloff multiplication:
the precomputed seam value for the first and last columns, and a fresh
sample at the vertex's own UV otherwise. -/
def rawDisp (p : LoftParams) (img : HeightImage) (scale bias : ℝ)
    (uvX uvY : ℕ → ℕ → ℝ) (ring seg : ℕ) : ℝ :=
  if seg = 0 ∨ seg = p.segments then seamDisplacement p img scale bias (uvY ring 0)
  else rawSample p img scale bias (uvX ring seg) (uvY ring seg)

/-- Displacement value actually applied to vertex (ring, seg): rawDisp
multiplied by the falloff at the vertex's own v. -/
def dispFinal (p : LoftParams) (img : HeightImage) (scale bias : ℝ)
    (uvX uvY : ℕ → ℕ → ℝ) (ring seg : ℕ) : ℝ :=
  rawDisp p img scale bias uvX uvY ring seg * calculateDisplacementFalloff p (uvY ring seg)

/-- Offset step of applyDisplacementToGeometry for one vertex: in
horizontal mode the vertex moves along the normalized horizontal component
of its normal (not at all if that component is shorter than 0.001); in the
other modes it moves along the chosen normal, except that cap-ring vertices
keep their y coordinate. -/
def displaceVertex (isHorizontalMode isCapRing : Bool) (n pos : V3) (d : ℝ) : V3 :=
  if isHorizontalMode then
    let horizontalLength := Real.sqrt (n.1 * n.1 + n.2.2 * n.2.2)
    if horizontalLength > 0.001 then
      (pos.1 + n.1 / horizontalLength * d, pos.2.1, pos.2.2 + n.2.2 / horizontalLength * d)
    else pos
  else
    (pos.1 + n.1 * d,
     if isCapRing then pos.2.1 else pos.2.1 + n.2.1 * d,
     pos.2.2 + n.2.2 * d)

/-- Radial distance of a vertex from the revolution (y) axis. -/
def radial (v : V3) : ℝ := Real.sqrt (v.1 * v.1 + v.2.2 * v.2.2)

/-- Minimum-radius clamp of applyDisplacementToGeometry: when the offset
vertex has radial distance below minRadius its x and z components are
rescaled by minRadius / newRadius.  The division is unguarded in the
source; the real-number model gives the division-by-zero case the junk
value 0 where IEEE arithmetic produces NaN, and claim C10 shows the clamp's
guarantee fails there either way. -/
def clampRadius (v : V3) : V3 :=
  let newRadius := radial v
  if newRadius < minRadius then
    (v.1 * (minRadius / newRadius), v.2.1, v.2.2 * (minRadius / newRadius))
  else v

/-- Normal used for the offset, as selected by the useVertexNormals flag
(the caller passes normalType different from face).  The face-normal map is
initialized for every vertex index, so its lookup fallback is never taken;
both sources enter here as grid functions. -/
def chooseNormal (useVertexNormals : Bool) (vNrm fNrm : ℕ → ℕ → V3) (ring seg : ℕ) : V3 :=
  if useVertexNormals then vNrm ring seg else fNrm ring seg

/-- Grid of positions after the per-vertex displacement and clamp loop of
applyDisplacementToGeometry (before the final seam copy). -/
def displacedNoSeam (p : LoftParams) (img : HeightImage) (scale bias : ℝ)
    (useVertexNormals : Bool) (numRings : ℕ) (pos vNrm fNrm : ℕ → ℕ → V3)
    (uvX uvY : ℕ → ℕ → ℝ) : ℕ → ℕ → V3 :=
  fun ring seg =>
    clampRadius (displaceVertex (decide (p.normalType = NormalMode.horizontal))
      (decide (ring = 0 ∨ ring = numRings - 1))
      (chooseNormal useVertexNormals vNrm fNrm ring seg) (pos ring seg)
      (dispFinal p img scale bias uvX uvY ring seg))

/-- Final seam pass (shared by applyDisplacementToGeometry and
smoothDisplacedGeometry): the position of the first vertex of each ring is
copied verbatim onto the last vertex of that ring. -/
def seamFix (segments : ℕ) (pos : ℕ → ℕ → V3) : ℕ → ℕ → V3 :=
  fun ring seg => if seg = segments then pos ring 0 else pos ring seg

/-- Wrap-around of a segment index used by the smoothing pass: indices
below 0 map to segments - 1 and indices above segments map to 1. -/
def wrapSeg (segments : ℕ) (j : ℤ) : ℕ :=
  if j < 0 then segments - 1 else if j > (segments : ℤ) then 1 else j.toNat

/-- Scalar multiple of a vertex, componentwise. -/
def vsmul (c : ℝ) (v : V3) : V3 := (c * v.1, c * v.2.1, c * v.2.2)

/-- Weighted contribution of the vertical neighbor at ring offset off in
the smoothing pass: weight 0.2 / |off| when the neighbor ring exists,
nothing otherwise.  Returns the weighted position and the weight. -/
def vertTerm (rings : ℕ) (pos : ℕ → ℕ → V3) (ring seg : ℕ) (off : ℤ) : V3 × ℝ :=
  if 0 ≤ (ring : ℤ) + off ∧ (ring : ℤ) + off < (rings : ℤ) then
    (vsmul (0.2 / (off.natAbs : ℝ)) (pos ((ring : ℤ) + off).toNat seg),
     0.2 / (off.natAbs : ℝ))
  else ((0, 0, 0), 0)

/-- Weighted contribution of the horizontal neighbor at segment offset off
in the smoothing pass: weight 0.1, with wrap-around at the seam. -/
def horizTerm (segments : ℕ) (pos : ℕ → ℕ → V3) (ring seg : ℕ) (off : ℤ) : V3 :=
  vsmul 0.1 (pos ring (wrapSeg segments ((seg : ℤ) + off)))

/-- One smoothed vertex of smoothDisplacedGeometry: cap-ring vertices are
kept unchanged; every other vertex becomes the weighted average of itself
(weight 0.4), the existing vertical neighbors within two rings
(weight 0.2 / |offset|) and the two adjacent segments (weight 0.1),
normalized by the accumulated total weight. -/
def smoothVertex (rings segments : ℕ) (pos : ℕ → ℕ → V3) (ring seg : ℕ) : V3 :=
  if ring = 0 ∨ ring = rings - 1 then pos ring seg
  else
    let t1 := vertTerm rings pos ring seg (-2)
    let t2 := vertTerm rings pos ring seg (-1)
    let t3 := vertTerm rings pos ring seg 1
    let t4 := vertTerm rings pos ring seg 2
    let sum := vsmul 0.4 (pos ring seg) + t1.1 + t2.1 + t3.1 + t4.1
      + horizTerm segments pos ring seg (-1) + horizTerm segments pos ring seg 1
    let totalWeight := 0.4 + t1.2 + t2.2 + t3.2 + t4.2 + 0.1 + 0.1
    (sum.1 / totalWeight, sum.2.1 / totalWeight, sum.2.2 / totalWeight)

/-- One full pass of smoothDisplacedGeometry: all vertices are computed
from the pre-pass snapshot and written simultaneously. -/
def smoothPass (rings segments : ℕ) (pos : ℕ → ℕ → V3) : ℕ → ℕ → V3 :=
  fun ring seg => smoothVertex rings segments pos ring seg

/-- Whole smoothDisplacedGeometry: the given number of passes, then the
seam columns are re-equalized (last column overwritten from the first). -/
def smoothDisplacedGeometry (rings segments passes : ℕ) (pos : ℕ → ℕ → V3) : ℕ → ℕ → V3 :=
  seamFix segments ((smoothPass rings segments)^[passes] pos)

/-- Positions produced by applyDisplacementToGeometry: the displacement
loop, the explicit seam copy, and, when the scale is above 0.01 in absolute
value and the smoothing intensity positive, the smoothing passes with their
own final seam re-equalization. -/
def applyDisplacementPositions (p : LoftParams) (img : HeightImage) (scale bias : ℝ)
    (useVertexNormals : Bool) (numRings : ℕ) (pos vNrm fNrm : ℕ → ℕ → V3)
    (uvX uvY : ℕ → ℕ → ℝ) : ℕ → ℕ → V3 :=
  let displaced := seamFix p.segments
    (displacedNoSeam p img scale bias useVertexNormals numRings pos vNrm fNrm uvX uvY)
  if 0.01 < |scale| ∧ 0 < p.smoothingIntensity then
    smoothDisplacedGeometry numRings p.segments p.smoothingIntensity displaced
  else displaced

/-- Constant grid used to instantiate witness theorems. -/
def cGrid : ℕ → ℕ → V3 := fun _ _ => (1, 2, 3)

/-- Constant UV channel used to instantiate witness theorems. -/
def cUV : ℕ → ℕ → ℝ := fun _ _ => 0

/-- One-pixel black image used to instantiate witness theorems. -/
def cImg : HeightImage := ⟨1, 1, fun _ _ => 0⟩

/-- Ring vertices read by getDisplacedRingVertices: the exact current
positions of the segments + 1 vertices of the given ring, copied without
modification into a fresh array. -/
def getDisplacedRingVertices (pos : ℕ → ℕ → V3) (ringIndex segments : ℕ) : List V3 :=
  (List.range (segments + 1)).map fun seg => pos ringIndex seg

/-- Cap center of createWeldedCapGeometries: componentwise sum of the first
segments ring vertices (excluding the duplicate seam vertex) divided by
segments. -/
def capCenter (verts : List V3) (segments : ℕ) : V3 :=
  (((List.range segments).map fun i => (verts.getD i (0, 0, 0)).1).sum / (segments : ℝ),
   ((List.range segments).map fun i => (verts.getD i (0, 0, 0)).2.1).sum / (segments : ℝ),
   ((List.range segments).map fun i => (verts.getD i (0, 0, 0)).2.2).sum / (segments : ℝ))

/-- Vertex list of one cap geometry: the synthesized centroid vertex
followed by the exact ring vertices. -/
def capVertices (verts : List V3) (segments : ℕ) : List V3 :=
  capCenter verts segments :: verts

/-- Position buffers of the two caps built by createWeldedCapGeometries
from the current body grid: the bottom cap reads ring 0 and the top cap
ring rings - 1. -/
def createWeldedCapPositions (pos : ℕ → ℕ → V3) (segments rings : ℕ) : List V3 × List V3 :=
  (capVertices (getDisplacedRingVertices pos 0 segments) segments,
   capVertices (getDisplacedRingVertices pos (rings - 1) segments) segments)

/-- Geometry buffer of the export path: position and normal attributes. -/
structure Geometry where
  positions : List V3
  normals : List V3

/-- Vertex transform of processGeometryForExport: every coordinate is
multiplied by the export scale, then Y and Z are swapped when swapYZ is
set. -/
def exportVertex (scale : ℝ) (swapYZ : Bool) (v : V3) : V3 :=
  let x := v.1 * scale
  let y := v.2.1 * scale
  let z := v.2.2 * scale
  if swapYZ then (x, z, y) else (x, y, z)

/-- Normal transform of processGeometryForExport: Y and Z components are
swapped when swapYZ is set, otherwise the normal is untouched. -/
def exportNormal (swapYZ : Bool) (n : V3) : V3 :=
  if swapYZ then (n.1, n.2.2, n.2.1) else n

/-- Attribute rewrite of processGeometryForExport applied to a geometry
value. -/
def processGeometryForExport (g : Geometry) (scale : ℝ) (swapYZ : Bool) : Geometry :=
  { positions := g.positions.map (exportVertex scale swapYZ),
    normals := g.normals.map (exportNormal swapYZ) }

/-- Model of createExportClone: the live geometry is cloned and only the
clone is processed; the pair returned here is (live geometry as the export
leaves it, processed clone), making the no-mutation guarantee a provable
equation on the first component. -/
def createExportClone (live : Geometry) (scale : ℝ) (swapYZ : Bool) : Geometry × Geometry :=
  (live, processGeometryForExport live scale swapYZ)

/-- Parameters of the claim C7 counterexample: 2 rings, 2 segments,
texture rotation 180 degrees, unit repeats, falloff disabled, scale 1,
bias 0. -/
def c7Params : LoftParams :=
  { rings := 2, segments := 2, radius := 2, height := 5, twist := 0, taper := 1,
    normalType := NormalMode.vertex, textureRepeatU := 1, textureRepeatV := 1,
    textureRotation := 180, displacementScale := 1, displacementBias := 0,
    smoothingIntensity := 0, falloffEnabled := false, falloffTop := 0.2,
    falloffBottom := 0.2, falloffPower := 2, exportScale := 10 }

/-- Image of the claim C7 counterexample: 4 pixels wide, 1 pixel tall, red
channel 255 in column 1 and 0 elsewhere. -/
def c7Img : HeightImage := ⟨4, 1, fun x _ => if x = 1 then 255 else 0⟩

/-- U channel of the counterexample grid, exactly as createLoftGeometry
stores it (including the progressive texture rotation). -/
def c7uvX : ℕ → ℕ → ℝ := fun ring seg => loftU c7Params ring seg

/-- V channel of the counterexample grid, exactly as createLoftGeometry
stores it. -/
def c7uvY : ℕ → ℕ → ℝ := fun ring _ => loftV c7Params ring

theorem findSegmentRadius_fallback (h fb : ℝ) (anchors : List Anchor)
    (hnb : ∀ p ∈ anchors.zip anchors.tail, ¬(p.1.posY ≤ h ∧ h ≤ p.2.posY)) :
    findSegmentRadius h fb anchors = fb := by
  induction anchors with
  | nil => rfl
  | cons a rest ih =>
    cases rest with
    | nil => rfl
    | cons b rest2 =>
      have h0 := hnb (a, b) (by simp)
      rw [findSegmentRadius, if_neg h0]
      refine ih fun q hq => hnb q ?_
      simp only [List.zip, List.tail_cons] at hq ⊢
      exact List.mem_cons_of_mem _ hq

/-- Claim C5.  Profile evaluator boundary and fallback contract:
getRadiusAtHeight returns max(0.1, first anchor radius) for h at or below 0,
max(0.1, last anchor radius) for h at or above the configured total height,
and when no consecutive anchor pair's heights bracket h (anchors not
height-sorted) it returns the nominal base radius parameter. -/
theorem profile_boundary_and_fallback (a : Anchor) (rest : List Anchor)
    (H base h : ℝ) :
    (h ≤ 0 → getRadiusAtHeight (a :: rest) H base h = max 0.1 a.posX) ∧
    (0 < h → H ≤ h →
      getRadiusAtHeight (a :: rest) H base h = max 0.1 ((a :: rest).getLastD default).posX) ∧
    (0 < h → h < H →
      (∀ q ∈ (a :: rest).zip (a :: rest).tail, ¬(q.1.posY ≤ h ∧ h ≤ q.2.posY)) →
      getRadiusAtHeight (a :: rest) H base h = base) := by
  refine ⟨fun hle => ?_, fun hpos hge => ?_, fun hpos hlt hnb => ?_⟩
  · rw [getRadiusAtHeight, if_pos hle]
    rfl
  · rw [getRadiusAtHeight, if_neg (not_le.mpr hpos), if_pos hge]
  · rw [getRadiusAtHeight, if_neg (not_le.mpr hpos), if_neg (not_le.mpr hlt)]
    exact findSegmentRadius_fallback h base _ hnb

/-- Witness for claim C5 at concrete inputs: anchors with radii 1 and 3 at
heights 5 and 0 (not height-sorted), total height 5, base radius 7. -/
theorem profile_boundary_and_fallback_witness :
    getRadiusAtHeight [⟨1, 5, 0, 0, 0, 0⟩, ⟨3, 0, 0, 0, 0, 0⟩] 5 7 (-1) = max 0.1 1 ∧
    getRadiusAtHeight [⟨1, 5, 0, 0, 0, 0⟩, ⟨3, 0, 0, 0, 0, 0⟩] 5 7 6 = max 0.1 3 ∧
    getRadiusAtHeight [⟨1, 5, 0, 0, 0, 0⟩, ⟨3, 0, 0, 0, 0, 0⟩] 5 7 2 = 7 := by
  refine ⟨(profile_boundary_and_fallback _ [⟨3, 0, 0, 0, 0, 0⟩] 5 7 (-1)).1 (by norm_num),
    ?_, ?_⟩
  · have := (profile_boundary_and_fallback ⟨1, 5, 0, 0, 0, 0⟩ [⟨3, 0, 0, 0, 0, 0⟩] 5 7 6).2.1
      (by norm_num) (by norm_num)
    simpa [List.getLastD] using this
  · refine (profile_boundary_and_fallback ⟨1, 5, 0, 0, 0, 0⟩ [⟨3, 0, 0, 0, 0, 0⟩] 5 7 2).2.2
      (by norm_num) (by norm_num) ?_
    intro q hq
    simp only [List.zip, List.tail_cons, List.zipWith_cons_cons, List.zipWith_nil_right,
      List.mem_cons, List.not_mem_nil, or_false] at hq
    subst hq
    norm_num

theorem bezierPoint_const_x (c y0 y1 y2 y3 t : ℝ) :
    (bezierPoint (c, y0) (c, y1) (c, y2) (c, y3) t).1 = c := by
  simp only [bezierPoint]
  ring

theorem bisectRadius_const_x (c y0 y1 y2 y3 h : ℝ) :
    ∀ (fuel : ℕ) (tMin tMax t : ℝ),
      bisectRadius (c, y0) (c, y1) (c, y2) (c, y3) h fuel tMin tMax t = max 0.1 c := by
  intro fuel
  induction fuel with
  | zero => intro tMin tMax t; rw [bisectRadius, bezierPoint_const_x]
  | succ n ih =>
    intro tMin tMax t
    simp only [bisectRadius]
    split_ifs
    · rw [bezierPoint_const_x]
    · exact ih _ _ _
    · exact ih _ _ _

theorem scenarioA_interior (h : ℝ) (h0 : 0 < h) (h5 : h < 5) :
    getRadiusAtHeight scenarioAAnchors 5 2 h = 2 := by
  rw [getRadiusAtHeight, if_neg (not_le.mpr h0), if_neg (not_le.mpr h5)]
  show findSegmentRadius h 2 scenarioAAnchors = 2
  rw [scenarioAAnchors, findSegmentRadius]
  rw [if_pos ⟨le_of_lt h0, le_of_lt h5⟩]
  norm_num [bisectRadius_const_x]

/-- Claim C6.  Lathe grid synthesis: every grid vertex sits at
(radius * cos theta, ring * heightStep, radius * sin theta) with theta
accumulating the ring twist, the ring radius is
max(0.1, radiusAtHeight(y) * taper(ring)), the taper interpolates linearly
from 1 at ring 0 to the configured taper at the last ring, and in scenario A
(two radius-2 anchors, 10 rings, 16 segments) every ring radius equals 2. -/
theorem loft_grid_synthesis (anchors : List Anchor) (p : LoftParams) (hr : 2 ≤ p.rings) :
    (∀ ring seg : ℕ,
      loftPosition anchors p ring seg =
        (ringRadius anchors p ring *
            Real.cos (((seg : ℝ) / (p.segments : ℝ)) * π * 2 + (ring : ℝ) * twistStep p),
         (ring : ℝ) * (p.height / ((p.rings : ℝ) - 1)),
         ringRadius anchors p ring *
            Real.sin (((seg : ℝ) / (p.segments : ℝ)) * π * 2 + (ring : ℝ) * twistStep p))) ∧
    (∀ ring : ℕ,
      ringRadius anchors p ring =
        max 0.1 (getRadiusAtHeight anchors p.height p.radius
          ((ring : ℝ) * (p.height / ((p.rings : ℝ) - 1))) * ringTaper p ring)) ∧
    (ringTaper p 0 = 1 ∧ ringTaper p (p.rings - 1) = p.taper) ∧
    (∀ ring : ℕ, ring < 10 → ringRadius scenarioAAnchors scenarioAParams ring = 2) := by
  have hcast : ((p.rings : ℝ) - 1) ≠ 0 := by
    have : (2 : ℝ) ≤ (p.rings : ℝ) := by exact_mod_cast hr
    linarith
  refine ⟨fun ring seg => rfl, fun ring => rfl, ⟨?_, ?_⟩, ?_⟩
  · norm_num [ringTaper]
  · have hc : ((p.rings - 1 : ℕ) : ℝ) = (p.rings : ℝ) - 1 := by
      have : 1 ≤ p.rings := le_trans (by norm_num) hr
      push_cast [this]
      ring
    rw [ringTaper, hc, div_self hcast]
    ring
  · intro ring hring
    have htaper : ringTaper scenarioAParams ring = 1 := by
      simp [ringTaper, scenarioAParams]
    have hstep : heightStep scenarioAParams = 5 / 9 := by
      norm_num [heightStep, scenarioAParams]
    have hH : scenarioAParams.height = 5 := rfl
    have hR : scenarioAParams.radius = 2 := rfl
    rw [ringRadius, htaper, hstep, mul_one, hH, hR]
    rcases Nat.eq_zero_or_pos ring with h0 | hpos
    · subst h0
      rw [show ((0 : ℕ) : ℝ) * (5 / 9) = 0 by norm_num]
      rw [getRadiusAtHeight, if_pos le_rfl]
      norm_num [scenarioAAnchors, minRadius, List.headI]
    · rcases Nat.lt_or_ge ring 9 with h9 | h9
      · have hcast1 : (1 : ℝ) ≤ (ring : ℝ) := by exact_mod_cast hpos
        have hcast8 : (ring : ℝ) ≤ 8 := by exact_mod_cast Nat.lt_succ_iff.mp h9
        have hy0 : (0 : ℝ) < (ring : ℝ) * (5 / 9) := by nlinarith
        have hy5 : (ring : ℝ) * (5 / 9) < 5 := by nlinarith
        rw [scenarioA_interior _ hy0 hy5]
        norm_num [minRadius]
      · have h9' : ring = 9 := by omega
        subst h9'
        rw [show ((9 : ℕ) : ℝ) * (5 / 9) = 5 by norm_num]
        rw [getRadiusAtHeight, if_neg (by norm_num), if_pos le_rfl]
        norm_num [scenarioAAnchors, minRadius, List.getLastD]

/-- Witness for claim C6 at a concrete ring and segment of scenario A. -/
theorem loft_grid_synthesis_witness :
    ringRadius scenarioAAnchors scenarioAParams 3 = 2 ∧
    ringTaper scenarioAParams 0 = 1 := by
  have h := loft_grid_synthesis scenarioAAnchors scenarioAParams (by norm_num [scenarioAParams])
  exact ⟨h.2.2.2 3 (by norm_num), h.2.2.1.1⟩

theorem falloff_bottom_zone (p : LoftParams) (hEn : p.falloffEnabled = true)
    (hfb : 0 < p.falloffBottom) (hzones : p.falloffBottom ≤ 1 - p.falloffTop) :
    ∀ v ∈ Set.Icc (0 : ℝ) p.falloffBottom,
      calculateDisplacementFalloff p v = (v / p.falloffBottom) ^ p.falloffPower := by
  intro v hv
  rw [calculateDisplacementFalloff, if_neg (by rw [hEn]; simp)]
  rcases lt_or_eq_of_le hv.2 with hlt | heq
  · rw [if_pos hlt]
  · subst heq
    rw [if_neg (lt_irrefl _), if_neg (not_lt.mpr hzones), div_self (ne_of_gt hfb),
      Real.one_rpow]

theorem falloff_top_zone (p : LoftParams) (hEn : p.falloffEnabled = true)
    (hft : 0 < p.falloffTop) (hzones : p.falloffBottom ≤ 1 - p.falloffTop) :
    ∀ v ∈ Set.Icc (1 - p.falloffTop) (1 : ℝ),
      calculateDisplacementFalloff p v = ((1 - v) / p.falloffTop) ^ p.falloffPower := by
  intro v hv
  rw [calculateDisplacementFalloff, if_neg (by rw [hEn]; simp)]
  have hnb : ¬(v < p.falloffBottom) := not_lt.mpr (le_trans hzones hv.1)
  rw [if_neg hnb]
  rcases lt_or_eq_of_le hv.1 with hlt | heq
  · rw [if_pos hlt]
  · rw [← heq, if_neg (lt_irrefl _)]
    rw [show (1 : ℝ) - (1 - p.falloffTop) = p.falloffTop by ring, div_self (ne_of_gt hft),
      Real.one_rpow]

/-- Claim C4.  Falloff multiplier contract: calculateDisplacementFalloff
agrees with the piecewise reference function falloffSpec, equals 1 at
v = falloffBottom, equals 0 at v = 0 when falloff is enabled and the power
is positive, is monotone in the bottom zone and antitone in the top zone for
positive power, and in scenario B the displacement
(sample * scale + bias) * multiplier at v = 0.9 equals 0.25. -/
theorem falloff_multiplier_contract (p : LoftParams)
    (hfb : 0 < p.falloffBottom) (hft : 0 < p.falloffTop)
    (hzones : p.falloffBottom ≤ 1 - p.falloffTop) :
    (∀ v, calculateDisplacementFalloff p v
        = falloffSpec p.falloffEnabled p.falloffTop p.falloffBottom p.falloffPower v) ∧
    (calculateDisplacementFalloff p p.falloffBottom = 1) ∧
    (p.falloffEnabled = true → 0 < p.falloffPower →
      calculateDisplacementFalloff p 0 = 0) ∧
    (p.falloffEnabled = true → 0 < p.falloffPower →
      MonotoneOn (calculateDisplacementFalloff p) (Set.Icc 0 p.falloffBottom)) ∧
    (p.falloffEnabled = true → 0 < p.falloffPower →
      AntitoneOn (calculateDisplacementFalloff p) (Set.Icc (1 - p.falloffTop) 1)) ∧
    ((1 * 1 + 0) * calculateDisplacementFalloff scenarioBParams 0.9 = 0.25) := by
  have hftfb : p.falloffBottom ≤ 1 - p.falloffTop := hzones
  refine ⟨?_, ?_, ?_, ?_, ?_, ?_⟩
  · intro v
    rw [calculateDisplacementFalloff, falloffSpec]
    by_cases hE : p.falloffEnabled = false
    · rw [if_pos hE, if_pos hE]
    · rw [if_neg hE, if_neg hE]
      by_cases h1 : v < p.falloffBottom
      · rw [if_pos h1, if_pos (le_of_lt h1)]
      · rw [if_neg h1]
        by_cases h3 : v ≤ p.falloffBottom
        · have hv : v = p.falloffBottom := le_antisymm h3 (not_lt.mp h1)
          subst hv
          rw [if_pos (le_refl p.falloffBottom), if_neg (not_lt.mpr hzones),
            div_self (ne_of_gt hfb), Real.one_rpow]
        · rw [if_neg h3]
          by_cases h2 : v > 1 - p.falloffTop
          · rw [if_pos h2, if_pos (le_of_lt h2)]
          · rw [if_neg h2]
            by_cases h4 : 1 - p.falloffTop ≤ v
            · have hv : v = 1 - p.falloffTop := le_antisymm (not_lt.mp h2) h4
              subst hv
              rw [if_pos (le_refl ((1 : ℝ) - p.falloffTop)),
                show (1 : ℝ) - (1 - p.falloffTop) = p.falloffTop by ring,
                div_self (ne_of_gt hft), Real.one_rpow]
            · rw [if_neg h4]
  · by_cases hE : p.falloffEnabled = false
    · rw [calculateDisplacementFalloff, if_pos hE]
    · rw [Bool.not_eq_false] at hE
      have := falloff_bottom_zone p hE hfb hzones p.falloffBottom
        ⟨le_of_lt hfb, le_rfl⟩
      rw [this, div_self (ne_of_gt hfb), Real.one_rpow]
  · intro hE hpw
    have := falloff_bottom_zone p hE hfb hzones 0 ⟨le_rfl, le_of_lt hfb⟩
    rw [this, zero_div, Real.zero_rpow (ne_of_gt hpw)]
  · intro hE hpw
    intro a ha b hb hab
    rw [falloff_bottom_zone p hE hfb hzones a ha, falloff_bottom_zone p hE hfb hzones b hb]
    exact Real.rpow_le_rpow (div_nonneg ha.1 (le_of_lt hfb))
      ((div_le_div_iff_of_pos_right hfb).mpr hab) (le_of_lt hpw)
  · intro hE hpw
    intro a ha b hb hab
    rw [falloff_top_zone p hE hft hzones a ha, falloff_top_zone p hE hft hzones b hb]
    refine Real.rpow_le_rpow (div_nonneg (by linarith [hb.2]) (le_of_lt hft))
      ((div_le_div_iff_of_pos_right hft).mpr (by linarith)) (le_of_lt hpw)
  · have h1 : calculateDisplacementFalloff scenarioBParams 0.9
        = ((1 - 0.9) / (0.2 : ℝ)) ^ (2 : ℝ) := by
      rw [calculateDisplacementFalloff]
      norm_num [scenarioBParams]
    rw [h1, show ((1 : ℝ) - 0.9) / 0.2 = 0.5 by norm_num,
      show ((2 : ℝ)) = ((2 : ℕ) : ℝ) by norm_num, Real.rpow_natCast]
    norm_num

/-- Witness for claim C4 at the concrete scenario B parameters. -/
theorem falloff_multiplier_contract_witness :
    calculateDisplacementFalloff scenarioBParams scenarioBParams.falloffBottom = 1 ∧
    calculateDisplacementFalloff scenarioBParams 0 = 0 ∧
    (1 * 1 + 0) * calculateDisplacementFalloff scenarioBParams 0.9 = 0.25 := by
  have h := falloff_multiplier_contract scenarioBParams
    (by norm_num [scenarioBParams]) (by norm_num [scenarioBParams])
    (by norm_num [scenarioBParams])
  exact ⟨h.2.1, h.2.2.1 rfl (by norm_num [scenarioBParams]), h.2.2.2.2.2⟩

theorem seamFix_closed (segments : ℕ) (f : ℕ → ℕ → V3) (ring : ℕ) :
    seamFix segments f ring 0 = seamFix segments f ring segments := by
  simp only [seamFix, if_true]
  split_ifs <;> rfl

theorem wrapSeg_minus_one (segments : ℕ) :
    wrapSeg segments ((segments : ℤ) - 1) = wrapSeg segments ((0 : ℤ) - 1) := by
  rw [wrapSeg, wrapSeg]
  split_ifs with h1 h2 h3 <;> omega

theorem wrapSeg_plus_one (segments : ℕ) :
    wrapSeg segments ((segments : ℤ) + 1) = wrapSeg segments ((0 : ℤ) + 1) := by
  rw [wrapSeg, wrapSeg]
  split_ifs with h1 h2 h3 h4 <;> omega

theorem smoothVertex_seam (rings segments : ℕ) (pos : ℕ → ℕ → V3)
    (hs : ∀ r, pos r 0 = pos r segments) (ring : ℕ) :
    smoothVertex rings segments pos ring 0 = smoothVertex rings segments pos ring segments := by
  have hv : ∀ off : ℤ, vertTerm rings pos ring 0 off = vertTerm rings pos ring segments off := by
    intro off
    rw [vertTerm, vertTerm]
    split_ifs with h
    · rw [hs]
    · rfl
  by_cases hcap : ring = 0 ∨ ring = rings - 1
  · rw [smoothVertex, smoothVertex, if_pos hcap, if_pos hcap, hs ring]
  · simp only [smoothVertex, if_neg hcap, horizTerm]
    rw [hv (-2), hv (-1), hv 1, hv 2, hs ring]
    rw [show ((0 : ℕ) : ℤ) + -1 = (0 : ℤ) - 1 by norm_num,
      show ((segments : ℕ) : ℤ) + -1 = (segments : ℤ) - 1 by ring,
      wrapSeg_minus_one]
    rw [show ((0 : ℕ) : ℤ) + 1 = (0 : ℤ) + 1 by norm_num,
      wrapSeg_plus_one]

theorem smoothPass_iterate_seam (rings segments : ℕ) :
    ∀ (n : ℕ) (pos : ℕ → ℕ → V3), (∀ r, pos r 0 = pos r segments) →
      ∀ r, ((smoothPass rings segments)^[n] pos) r 0
        = ((smoothPass rings segments)^[n] pos) r segments := by
  intro n
  induction n with
  | zero => intro pos hs r; simpa using hs r
  | succ k ih =>
    intro pos hs r
    rw [Function.iterate_succ_apply]
    exact ih (smoothPass rings segments pos)
      (fun r2 => smoothVertex_seam rings segments pos hs r2) r

/-- Claim C1.  Seam closure: after applyDisplacementToGeometry returns, the
position of the segment-0 vertex of every ring equals the position of the
segment-segments vertex; every individual smoothing pass preserves that
equality from any seam-closed grid; and the seam displacement value of the
last column is the very value computed for column 0, never recomputed. -/
theorem seam_closure (p : LoftParams) (img : HeightImage) (scale bias : ℝ)
    (useVertexNormals : Bool) (numRings : ℕ) (pos vNrm fNrm : ℕ → ℕ → V3)
    (uvX uvY : ℕ → ℕ → ℝ) :
    (∀ ring, applyDisplacementPositions p img scale bias useVertexNormals numRings
        pos vNrm fNrm uvX uvY ring 0
      = applyDisplacementPositions p img scale bias useVertexNormals numRings
        pos vNrm fNrm uvX uvY ring p.segments) ∧
    (∀ (n : ℕ) (q : ℕ → ℕ → V3), (∀ r, q r 0 = q r p.segments) →
      ∀ r, ((smoothPass numRings p.segments)^[n] q) r 0
        = ((smoothPass numRings p.segments)^[n] q) r p.segments) ∧
    (∀ ring, rawDisp p img scale bias uvX uvY ring p.segments
      = rawDisp p img scale bias uvX uvY ring 0) := by
  refine ⟨?_, smoothPass_iterate_seam numRings p.segments, ?_⟩
  · intro ring
    simp only [applyDisplacementPositions]
    split_ifs with h
    · rw [smoothDisplacedGeometry]
      exact seamFix_closed _ _ ring
    · exact seamFix_closed _ _ ring
  · intro ring
    rw [rawDisp, rawDisp, if_pos (Or.inr rfl), if_pos (Or.inl rfl)]

/-- Witness for claim C1 on a concrete constant grid. -/
theorem seam_closure_witness :
    applyDisplacementPositions scenarioAParams cImg 1 0 true 4 cGrid cGrid cGrid cUV cUV 1 0
      = applyDisplacementPositions scenarioAParams cImg 1 0 true 4 cGrid cGrid cGrid cUV cUV
          1 scenarioAParams.segments ∧
    ((smoothPass 4 scenarioAParams.segments)^[2] cGrid) 1 0
      = ((smoothPass 4 scenarioAParams.segments)^[2] cGrid) 1 scenarioAParams.segments := by
  exact ⟨(seam_closure scenarioAParams cImg 1 0 true 4 cGrid cGrid cGrid cUV cUV).1 1,
    (seam_closure scenarioAParams cImg 1 0 true 4 cGrid cGrid cGrid cUV cUV).2.1 2 cGrid
      (fun r => rfl) 1⟩

theorem clamped_radius_eq (v : V3) (h0 : 0 < radial v) (hlt : radial v < minRadius) :
    radial (clampRadius v) = minRadius := by
  simp only [clampRadius]
  rw [if_pos hlt, radial]
  have hexp : v.1 * (minRadius / radial v) * (v.1 * (minRadius / radial v))
      + v.2.2 * (minRadius / radial v) * (v.2.2 * (minRadius / radial v))
      = (minRadius / radial v) ^ 2 * (v.1 * v.1 + v.2.2 * v.2.2) := by ring
  rw [hexp, Real.sqrt_mul (sq_nonneg _),
    Real.sqrt_sq (div_nonneg (by norm_num [minRadius]) (le_of_lt h0))]
  rw [show Real.sqrt (v.1 * v.1 + v.2.2 * v.2.2) = radial v from rfl]
  exact div_mul_cancel₀ minRadius (ne_of_gt h0)

/-- Claim C3.  Minimum-radius clamp: a displaced vertex with positive
radial distance ends at radial distance at least minRadius, with y
untouched by the clamp, and a vertex at radius exactly 0.05 has its
horizontal components doubled and ends at radius exactly 0.1. -/
theorem min_radius_clamp (v : V3) (h0 : 0 < radial v) :
    minRadius ≤ radial (clampRadius v) ∧
    (clampRadius v).2.1 = v.2.1 ∧
    (radial v = 0.05 →
      clampRadius v = (v.1 * 2, v.2.1, v.2.2 * 2) ∧ radial (clampRadius v) = 0.1) := by
  refine ⟨?_, ?_, fun h05 => ?_⟩
  · by_cases hlt : radial v < minRadius
    · rw [clamped_radius_eq v h0 hlt]
    · simp only [clampRadius]
      rw [if_neg hlt]
      exact not_lt.mp hlt
  · simp only [clampRadius]
    split_ifs <;> rfl
  · have hlt : radial v < minRadius := by rw [h05]; norm_num [minRadius]
    constructor
    · simp only [clampRadius]
      rw [if_pos hlt, h05]
      norm_num [minRadius]
    · rw [clamped_radius_eq v h0 hlt]
      norm_num [minRadius]

/-- Witness for claim C3 at the vertex (0.03, 1, 0.04) of radius 0.05. -/
theorem min_radius_clamp_witness :
    minRadius ≤ radial (clampRadius ((0.03 : ℝ), (1 : ℝ), (0.04 : ℝ))) ∧
    clampRadius ((0.03 : ℝ), (1 : ℝ), (0.04 : ℝ)) = (0.06, 1, 0.08) ∧
    radial (clampRadius ((0.03 : ℝ), (1 : ℝ), (0.04 : ℝ))) = 0.1 := by
  have hrad : radial ((0.03 : ℝ), (1 : ℝ), (0.04 : ℝ)) = 0.05 := by
    rw [radial, show ((0.03 : ℝ) * 0.03 + 0.04 * 0.04) = 0.05 ^ 2 by norm_num]
    exact Real.sqrt_sq (by norm_num)
  have h := min_radius_clamp ((0.03 : ℝ), (1 : ℝ), (0.04 : ℝ)) (by rw [hrad]; norm_num)
  refine ⟨h.1, ?_, (h.2.2 hrad).2⟩
  rw [(h.2.2 hrad).1]
  norm_num

/-- Claim C10.  Unguarded division in the radial clamp: off the axis the
clamped vertex has radius exactly minRadius, but a vertex displaced exactly
onto the axis (x = z = 0) takes the clamp branch with denominator 0; its
written horizontal components are junk (NaN in IEEE arithmetic, the
division-by-zero value 0 in this real-number model) and the resulting
radius is 0, not at least minRadius, so the clamp's guarantee needs the
precondition newRadius greater than 0. -/
theorem clamp_requires_positive_radius (v : V3) (y : ℝ) :
    (0 < radial v → radial v < minRadius → radial (clampRadius v) = minRadius) ∧
    radial ((0 : ℝ), y, (0 : ℝ)) = 0 ∧
    radial ((0 : ℝ), y, (0 : ℝ)) < minRadius ∧
    radial (clampRadius ((0 : ℝ), y, (0 : ℝ))) = 0 ∧
    radial (clampRadius ((0 : ℝ), y, (0 : ℝ))) < minRadius := by
  have hr0 : radial ((0 : ℝ), y, (0 : ℝ)) = 0 := by
    rw [radial]
    simp
  have hc : radial (clampRadius ((0 : ℝ), y, (0 : ℝ))) = 0 := by
    simp only [clampRadius]
    rw [if_pos (by rw [hr0]; norm_num [minRadius])]
    rw [radial]
    simp
  refine ⟨fun h0 hlt => clamped_radius_eq v h0 hlt, hr0, ?_, hc, ?_⟩
  · rw [hr0]; norm_num [minRadius]
  · rw [hc]; norm_num [minRadius]

/-- Witness for claim C10 at the vertex (0.03, 1, 0.04). -/
theorem clamp_requires_positive_radius_witness :
    radial (clampRadius ((0.03 : ℝ), (1 : ℝ), (0.04 : ℝ))) = minRadius ∧
    radial (clampRadius ((0 : ℝ), (7 : ℝ), (0 : ℝ))) < minRadius := by
  have hrad : radial ((0.03 : ℝ), (1 : ℝ), (0.04 : ℝ)) = 0.05 := by
    rw [radial, show ((0.03 : ℝ) * 0.03 + 0.04 * 0.04) = 0.05 ^ 2 by norm_num]
    exact Real.sqrt_sq (by norm_num)
  have h := clamp_requires_positive_radius ((0.03 : ℝ), (1 : ℝ), (0.04 : ℝ)) 7
  exact ⟨h.1 (by rw [hrad]; norm_num) (by rw [hrad]; norm_num [minRadius]), h.2.2.2.2⟩

theorem clampRadius_preserves_y (v : V3) : (clampRadius v).2.1 = v.2.1 := by
  simp only [clampRadius]
  split_ifs <;> rfl

theorem displaceVertex_cap_y (isHoriz : Bool) (n pos : V3) (d : ℝ) :
    (displaceVertex isHoriz true n pos d).2.1 = pos.2.1 := by
  simp only [displaceVertex, if_true]
  split_ifs <;> rfl

/-- Claim C8.  Flat-cap frame property: a vertex of ring 0 or of the last
ring keeps its y coordinate through the displacement offset and clamp in
every normal mode (the horizontal branch never moves y, and the other
branches skip the y offset for cap rings), and the smoothing pass leaves
cap-ring vertices entirely unchanged. -/
theorem cap_ring_flat_displacement (p : LoftParams) (img : HeightImage) (scale bias : ℝ)
    (useVertexNormals : Bool) (numRings : ℕ) (pos vNrm fNrm : ℕ → ℕ → V3)
    (uvX uvY : ℕ → ℕ → ℝ) (ring seg : ℕ) (hcap : ring = 0 ∨ ring = numRings - 1) :
    (displacedNoSeam p img scale bias useVertexNormals numRings pos vNrm fNrm uvX uvY
        ring seg).2.1 = (pos ring seg).2.1 ∧
    (∀ (isHoriz : Bool) (n q : V3) (d : ℝ),
      (clampRadius (displaceVertex isHoriz true n q d)).2.1 = q.2.1) ∧
    (∀ (q : ℕ → ℕ → V3) (s : ℕ), smoothPass numRings p.segments q ring s = q ring s) := by
  refine ⟨?_, fun isHoriz n q d => ?_, fun q s => ?_⟩
  · simp only [displacedNoSeam]
    rw [decide_eq_true hcap, clampRadius_preserves_y, displaceVertex_cap_y]
  · rw [clampRadius_preserves_y, displaceVertex_cap_y]
  · show smoothVertex numRings p.segments q ring s = q ring s
    simp only [smoothVertex]
    rw [if_pos hcap]

/-- Witness for claim C8 on ring 0 of a concrete grid. -/
theorem cap_ring_flat_displacement_witness :
    (displacedNoSeam scenarioAParams cImg 1 0 true 4 cGrid cGrid cGrid cUV cUV 0 1).2.1
      = (cGrid 0 1).2.1 ∧
    smoothPass 4 scenarioAParams.segments cGrid 0 1 = cGrid 0 1 := by
  have h := cap_ring_flat_displacement scenarioAParams cImg 1 0 true 4 cGrid cGrid cGrid
    cUV cUV 0 1 (Or.inl rfl)
  exact ⟨h.1, h.2.2 cGrid 1⟩

theorem ringVerts_getD (pos : ℕ → ℕ → V3) (r segments seg : ℕ) (h : seg < segments + 1) :
    (getDisplacedRingVertices pos r segments).getD seg (0, 0, 0) = pos r seg := by
  rw [getDisplacedRingVertices]
  rw [List.getD_eq_getElem?_getD, List.getElem?_map, List.getElem?_range h]
  rfl

theorem capCenter_ring (pos : ℕ → ℕ → V3) (r segments : ℕ) :
    capCenter (getDisplacedRingVertices pos r segments) segments
      = (((List.range segments).map fun i => (pos r i).1).sum / (segments : ℝ),
         ((List.range segments).map fun i => (pos r i).2.1).sum / (segments : ℝ),
         ((List.range segments).map fun i => (pos r i).2.2).sum / (segments : ℝ)) := by
  have hmap : ∀ (f : V3 → ℝ),
      ((List.range segments).map fun i =>
        f ((getDisplacedRingVertices pos r segments).getD i (0, 0, 0)))
      = (List.range segments).map fun i => f (pos r i) := by
    intro f
    refine List.map_congr_left fun i hi => ?_
    rw [ringVerts_getD pos r segments i (Nat.lt_succ_of_lt (List.mem_range.mp hi))]
  rw [capCenter, hmap (fun v => v.1), hmap (fun v => v.2.1), hmap (fun v => v.2.2)]

/-- Claim C2.  Cap weld guarantee: each boundary vertex of the two cap
position arrays (built as fresh lists, structurally distinct from the body
buffer) is numerically identical to the corresponding body vertex of ring 0
or ring rings - 1, and each cap's centroid vertex is the componentwise
arithmetic mean of the first segments vertices of its boundary ring
(excluding the duplicate seam vertex). -/
theorem cap_weld (pos : ℕ → ℕ → V3) (segments rings : ℕ) :
    (∀ seg, seg ≤ segments →
      ((createWeldedCapPositions pos segments rings).1.getD (seg + 1) (0, 0, 0) = pos 0 seg ∧
       (createWeldedCapPositions pos segments rings).2.getD (seg + 1) (0, 0, 0)
         = pos (rings - 1) seg)) ∧
    ((createWeldedCapPositions pos segments rings).1.getD 0 (0, 0, 0)
      = (((List.range segments).map fun i => (pos 0 i).1).sum / (segments : ℝ),
         ((List.range segments).map fun i => (pos 0 i).2.1).sum / (segments : ℝ),
         ((List.range segments).map fun i => (pos 0 i).2.2).sum / (segments : ℝ))) ∧
    ((createWeldedCapPositions pos segments rings).2.getD 0 (0, 0, 0)
      = (((List.range segments).map fun i => (pos (rings - 1) i).1).sum / (segments : ℝ),
         ((List.range segments).map fun i => (pos (rings - 1) i).2.1).sum / (segments : ℝ),
         ((List.range segments).map fun i => (pos (rings - 1) i).2.2).sum / (segments : ℝ))) := by
  refine ⟨fun seg hseg => ⟨?_, ?_⟩, ?_, ?_⟩
  · rw [createWeldedCapPositions]
    rw [show (capVertices (getDisplacedRingVertices pos 0 segments) segments,
        capVertices (getDisplacedRingVertices pos (rings - 1) segments) segments).1
      = capVertices (getDisplacedRingVertices pos 0 segments) segments from rfl]
    rw [capVertices, List.getD_cons_succ]
    exact ringVerts_getD pos 0 segments seg (Nat.lt_succ_of_le hseg)
  · rw [createWeldedCapPositions]
    rw [show (capVertices (getDisplacedRingVertices pos 0 segments) segments,
        capVertices (getDisplacedRingVertices pos (rings - 1) segments) segments).2
      = capVertices (getDisplacedRingVertices pos (rings - 1) segments) segments from rfl]
    rw [capVertices, List.getD_cons_succ]
    exact ringVerts_getD pos (rings - 1) segments seg (Nat.lt_succ_of_le hseg)
  · rw [createWeldedCapPositions]
    rw [show (capVertices (getDisplacedRingVertices pos 0 segments) segments,
        capVertices (getDisplacedRingVertices pos (rings - 1) segments) segments).1
      = capVertices (getDisplacedRingVertices pos 0 segments) segments from rfl]
    rw [capVertices, List.getD_cons_zero]
    exact capCenter_ring pos 0 segments
  · rw [createWeldedCapPositions]
    rw [show (capVertices (getDisplacedRingVertices pos 0 segments) segments,
        capVertices (getDisplacedRingVertices pos (rings - 1) segments) segments).2
      = capVertices (getDisplacedRingVertices pos (rings - 1) segments) segments from rfl]
    rw [capVertices, List.getD_cons_zero]
    exact capCenter_ring pos (rings - 1) segments

/-- Witness for claim C2 on a concrete grid with 2 segments and 3 rings. -/
theorem cap_weld_witness :
    (createWeldedCapPositions cGrid 2 3).1.getD 2 (0, 0, 0) = cGrid 0 1 ∧
    (createWeldedCapPositions cGrid 2 3).2.getD 2 (0, 0, 0) = cGrid 2 1 := by
  have h := (cap_weld cGrid 2 3).1 1 (by norm_num)
  exact ⟨h.1, h.2⟩

/-- Claim C9.  Export transform: the export path leaves the live geometry
unchanged and produces a clone whose vertices are scaled then Y/Z-swapped
and whose normals are Y/Z-swapped; a vertex at (1, 2, 3) with scale 10 and
swapYZ exports to (10, 30, 20). -/
theorem export_transform (live : Geometry) (scale : ℝ) (swapYZ : Bool) :
    ((createExportClone live scale swapYZ).1 = live) ∧
    ((createExportClone live scale swapYZ).2.positions
      = live.positions.map (exportVertex scale swapYZ)) ∧
    ((createExportClone live scale swapYZ).2.normals
      = live.normals.map (exportNormal swapYZ)) ∧
    (∀ v : V3, exportVertex scale true v = (v.1 * scale, v.2.2 * scale, v.2.1 * scale)) ∧
    (∀ n : V3, exportNormal true n = (n.1, n.2.2, n.2.1)) ∧
    (exportVertex 10 true ((1 : ℝ), (2 : ℝ), (3 : ℝ)) = (10, 30, 20)) := by
  refine ⟨rfl, rfl, rfl, fun v => rfl, fun n => rfl, ?_⟩
  rw [exportVertex]
  norm_num

theorem jsMod_half : jsMod (1 / 2) 1 = 1 / 2 := by
  rw [jsMod, jsTrunc, if_pos (by norm_num)]
  norm_num

theorem jsMod_zero_one : jsMod 0 1 = 0 := by
  rw [jsMod, jsTrunc, if_pos (by norm_num)]
  norm_num

theorem jsMod_one_one : jsMod 1 1 = 0 := by
  rw [jsMod, jsTrunc, if_pos (by norm_num)]
  norm_num

theorem c7_v_value : c7uvY 1 0 = 1 := by
  rw [c7uvY]
  simp only [loftV]
  norm_num [c7Params]

theorem c7_u_value : c7uvX 1 0 = 1 / 2 := by
  have hv : loftV c7Params 1 = 1 := c7_v_value
  rw [c7uvX]
  simp only [loftU, hv]
  have hrot : c7Params.textureRotation * π / 180 * 1 / (π * 2) = 1 / 2 := by
    rw [show c7Params.textureRotation = 180 from rfl]
    rw [div_eq_iff (by positivity : (π : ℝ) * 2 ≠ 0)]
    ring
  rw [show ((0 : ℕ) : ℝ) / ((c7Params.segments : ℕ) : ℝ) = 0 by norm_num]
  rw [hrot, zero_add, jsMod_half, if_neg (by norm_num)]

theorem c7_spec_sample : rawSample c7Params c7Img 1 0 (c7uvX 1 0) (c7uvY 1 0) = 1 := by
  rw [c7_u_value, c7_v_value, rawSample]
  rw [show (1 : ℝ) / 2 * c7Params.textureRepeatU = 1 / 2 by norm_num [c7Params]]
  rw [show (1 : ℝ) * c7Params.textureRepeatV = 1 by norm_num [c7Params]]
  rw [jsMod_half, jsMod_one_one, samplePixelRed]
  rw [show (1 : ℝ) / 2 * ((c7Img.width : ℝ) - 1) = 3 / 2 by norm_num [c7Img]]
  rw [show ((1 : ℝ) - 0) * ((c7Img.height : ℝ) - 1) = 0 by norm_num [c7Img]]
  rw [show ⌊(3 / 2 : ℝ)⌋ = 1 by rw [Int.floor_eq_iff]; norm_num]
  rw [show ⌊(0 : ℝ)⌋ = 0 from Int.floor_zero]
  rw [show c7Img.red 1 0 = 255 from rfl]
  norm_num

theorem c7_code_sample : rawDisp c7Params c7Img 1 0 c7uvX c7uvY 1 0 = 0 := by
  rw [rawDisp, if_pos (Or.inl rfl), seamDisplacement, c7_v_value]
  rw [show calculateDisplacementFalloff c7Params 1 = 1 by
    rw [calculateDisplacementFalloff,
      if_pos (show c7Params.falloffEnabled = false from rfl)]]
  rw [rawSample]
  rw [show (0 : ℝ) * c7Params.textureRepeatU = 0 by norm_num]
  rw [show (1 : ℝ) * c7Params.textureRepeatV = 1 by norm_num [c7Params]]
  rw [jsMod_zero_one, jsMod_one_one, samplePixelRed]
  rw [show (0 : ℝ) * ((c7Img.width : ℝ) - 1) = 0 by norm_num]
  rw [show ((1 : ℝ) - 0) * ((c7Img.height : ℝ) - 1) = 0 by norm_num [c7Img]]
  rw [show ⌊(0 : ℝ)⌋ = 0 from Int.floor_zero]
  rw [show c7Img.red 0 0 = 0 from rfl]
  norm_num

/-- Counterexample to claim C7 as stated: at ring 1, segment 0 of the grid
built with texture rotation 180 degrees, the code's displacement value is 0
(sampled at u = 0) while the sample at the vertex's own stored UV
coordinate is 1, so the raw displacement does not equal the image sampled
at every vertex's own UV. -/
theorem displacement_sampling_counterexample :
    rawDisp c7Params c7Img 1 0 c7uvX c7uvY 1 0 = 0 ∧
    rawSample c7Params c7Img 1 0 (c7uvX 1 0) (c7uvY 1 0) = 1 ∧
    rawDisp c7Params c7Img 1 0 c7uvX c7uvY 1 0
      ≠ rawSample c7Params c7Img 1 0 (c7uvX 1 0) (c7uvY 1 0) := by
  refine ⟨c7_code_sample, c7_spec_sample, ?_⟩
  rw [c7_code_sample, c7_spec_sample]
  norm_num

/-- Claim C7, amended.  Displacement sampling: every vertex strictly
between the seam columns is sampled at its own UV coordinate,
(u * repeatU mod 1, 1 - (v * repeatV mod 1)), red channel normalized to
[0, 1], times scale plus bias; the seam columns s = 0 and s = segments both
receive the ring's precomputed seam value instead, sampled at u = 0 with
the ring's v and already multiplied once by the falloff. -/
theorem displacement_sampling_amended (p : LoftParams) (img : HeightImage)
    (scale bias : ℝ) (uvX uvY : ℕ → ℕ → ℝ) (ring seg : ℕ)
    (h1 : 0 < seg) (h2 : seg < p.segments) :
    (rawDisp p img scale bias uvX uvY ring seg
      = rawSample p img scale bias (uvX ring seg) (uvY ring seg)) ∧
    (rawDisp p img scale bias uvX uvY ring 0
      = rawSample p img scale bias 0 (uvY ring 0)
        * calculateDisplacementFalloff p (uvY ring 0)) ∧
    (rawDisp p img scale bias uvX uvY ring p.segments
      = rawSample p img scale bias 0 (uvY ring 0)
        * calculateDisplacementFalloff p (uvY ring 0)) := by
  refine ⟨?_, ?_, ?_⟩
  · rw [rawDisp, if_neg (by omega)]
  · rw [rawDisp, if_pos (Or.inl rfl), seamDisplacement]
  · rw [rawDisp, if_pos (Or.inr rfl), seamDisplacement]

/-- Witness for the amended claim C7 at ring 1, segment 1 of the
counterexample grid. -/
theorem displacement_sampling_amended_witness :
    rawDisp c7Params c7Img 1 0 c7uvX c7uvY 1 1
      = rawSample c7Params c7Img 1 0 (c7uvX 1 1) (c7uvY 1 1) := by
  exact (displacement_sampling_amended c7Params c7Img 1 0 c7uvX c7uvY 1 1
    (by norm_num) (by norm_num [c7Params])).1

end

end VaseTexture
